import Mathlib

set_option maxHeartbeats 1000000

/-!
Shallow embedding of the QR-attendance Flask backend (src/app.py).

Python strings are modelled as lists of characters; the SQLite `attendance`
table as a list of rows plus the AUTOINCREMENT counter; the QR output
directory as the set of file paths present in it.  `werkzeug.security.safe_join`
and `posixpath.normpath` are embedded with their POSIX semantics
(`_os_alt_seps` is empty and `os.path.splitdrive` is trivial on POSIX).
Fallible Python calls (sqlite3 errors, image encode/save errors) are modelled
by explicit boolean oracles; raised exceptions become `Except` values.
-/

/-- Python `str`, modelled as a list of characters. -/
abbrev PyStr := List Char

/-- Character list of a Lean string literal (used to write Python string literals). -/
def pv (s : String) : PyStr := s.data

/-- ASCII whitespace, as stripped by Python `str.strip()`. -/
def isSpace (c : Char) : Bool :=
  c = ' ' || c = '\t' || c = '\n' || c = '\r' || c = '\x0b' || c = '\x0c'

/-- Python `str.strip()`: drop whitespace from both ends. -/
def pyStrip (s : PyStr) : PyStr :=
  ((s.dropWhile isSpace).reverse.dropWhile isSpace).reverse

/-- `validate_user_id` (src/app.py:158-160):
    `bool(user_id and user_id.strip() and len(user_id) <= 50)`.
    `None` and the empty string are falsy; a whitespace-only string has a
    falsy `strip()`; the length bound is checked on the untrimmed string. -/
def validate_user_id (user_id : Option PyStr) : Bool :=
  match user_id with
  | none => false
  | some s => !s.isEmpty && !(pyStrip s).isEmpty && decide (s.length ≤ 50)

/-- The spec's shared validation rule, stated in the spec's words: the
    candidate is non-null, its trimmed form is non-empty, and its untrimmed
    length is at most 50. -/
def specValidUserId (u : Option PyStr) : Prop :=
  match u with
  | none => False
  | some s => pyStrip s ≠ [] ∧ s.length ≤ 50

/-- Python `str.startswith(pat)`. -/
def pyStartsWith : PyStr → PyStr → Bool
  | _, [] => true
  | [], _ :: _ => false
  | c :: s, p :: ps => c == p && pyStartsWith s ps

/-- Python `path.split(sep)` for a one-character separator
    (`posixpath.normpath` splits the path on `"/"`). -/
def splitChar (sep : Char) : PyStr → List PyStr
  | [] => [[]]
  | c :: s =>
    if c = sep then [] :: splitChar sep s
    else (c :: (splitChar sep s).headI) :: (splitChar sep s).tail

/-- `"/".join(comps)` (posixpath joins normalised components with the separator). -/
def joinSlash : List PyStr → PyStr
  | [] => []
  | [x] => x
  | x :: y :: l => x ++ '/' :: joinSlash (y :: l)

/-- The `".."` path component. -/
def DD : PyStr := ['.', '.']

/-- One step of the component loop inside `posixpath.normpath`:
    skip `""` and `"."`; append a component unless it is `".."` that can
    cancel against a previous real component, in which case pop. -/
def normStep (initSlash : Bool) (acc : List PyStr) (comp : PyStr) : List PyStr :=
  if comp = [] ∨ comp = ['.'] then acc
  else if comp ≠ DD ∨ (initSlash = false ∧ acc = []) ∨ (acc ≠ [] ∧ acc.getLast? = some DD) then
    acc ++ [comp]
  else acc.dropLast

/-- The component normalisation of `posixpath.normpath`. -/
def normParts (initSlash : Bool) (comps : List PyStr) : List PyStr :=
  comps.foldl (normStep initSlash) []

/-- The `".."` components surviving normalisation form a prefix run. -/
def DDinv (acc : List PyStr) : Prop :=
  ∃ k rest, acc = List.replicate k DD ++ rest ∧ DD ∉ rest

/-- `initial_slashes` in `posixpath.normpath`: 0, 1, or the POSIX-special 2
    for a path starting with exactly two slashes. -/
def initSlashes (path : PyStr) : Nat :=
  if pyStartsWith path (pv "/") then
    if pyStartsWith path (pv "//") && !(pyStartsWith path (pv "///")) then 2 else 1
  else 0

/-- `posixpath.normpath`: purely lexical path normalisation (POSIX). -/
def normpath (path : PyStr) : PyStr :=
  if path = [] then ['.']
  else
    let p := List.replicate (initSlashes path) '/' ++
      joinSlash (normParts (initSlashes path != 0) (splitChar '/' path))
    if p = [] then ['.'] else p

/-- `posixpath.join(a, b)` for two arguments (POSIX). -/
def posixJoin (a b : PyStr) : PyStr :=
  if pyStartsWith b (pv "/") then b
  else if a = [] ∨ a.getLast? = some '/' then a ++ b
  else a ++ '/' :: b

/-- `werkzeug.security.safe_join(directory, filename)` on POSIX:
    `_os_alt_seps` is empty, `os.path.isabs` is a leading-slash test, and the
    (nonempty) filename is normalised with `posixpath.normpath` before the
    escape checks; `None` signals rejection. -/
def safe_join (directory filename : PyStr) : Option PyStr :=
  let d := if directory = [] then ['.'] else directory
  let f := if filename = [] then filename else normpath filename
  if pyStartsWith f (pv "/") || f == DD || pyStartsWith f (pv "../") then none
  else some (posixJoin d f)

/-- A path `p` is lexically confined to `dir`: it extends `dir ++ "/"` and the
    remaining components are real names (no `""`, `"."` or `".."`). -/
def isConfined (dir p : PyStr) : Bool :=
  pyStartsWith p (dir ++ ['/']) &&
  (splitChar '/' (p.drop (dir.length + 1))).all
    (fun c => decide (c ≠ [] ∧ c ≠ ['.'] ∧ c ≠ DD))

/-- Writing a file: creates the path or overwrites it in place (the directory
    is modelled as the set of file paths present in it). -/
def fsWrite (p : PyStr) (fs : List PyStr) : List PyStr :=
  if p ∈ fs then fs else fs ++ [p]

/-- A raised Python exception inside the `try` of `generate_qr_code`: either
    the service's own `QRCodeError` or any other exception (encode or save
    failure). -/
inductive PyExc where
  | qrError (msg : PyStr)
  | otherExc
deriving DecidableEq

/-- The `try` body of `QRCodeService.generate_qr_code` (src/app.py:130-146):
    build the QR image (the `encode_ok` oracle models `qrcode` raising),
    compute `safe_join(str(self.qr_codes_dir), f"{user_id}.png")`, and if the
    result is truthy save the image there (the `write_ok` oracle models
    `qr_image.save` raising); a `None` path raises
    `QRCodeError("Invalid QR code path")` before any write. -/
def generate_qr_code_try (encode_ok write_ok : Bool) (qr_codes_dir user_id : PyStr)
    (fs : List PyStr) : Except PyExc (PyStr × List PyStr) :=
  if !encode_ok then Except.error PyExc.otherExc
  else
    match safe_join qr_codes_dir (user_id ++ pv ".png") with
    | some qr_path =>
      if write_ok then Except.ok (qr_path, fsWrite qr_path fs)
      else Except.error PyExc.otherExc
    | none => Except.error (PyExc.qrError (pv "Invalid QR code path"))

/-- `QRCodeService.generate_qr_code` (src/app.py:128-150): the enclosing
    `except Exception` catches every failure of the `try` body — including the
    service's own path rejection — logs it, and raises
    `QRCodeError("Failed to generate QR code")`; on failure no file has been
    written. -/
def generate_qr_code (encode_ok write_ok : Bool) (qr_codes_dir user_id : PyStr)
    (fs : List PyStr) : Except PyStr PyStr × List PyStr :=
  match generate_qr_code_try encode_ok write_ok qr_codes_dir user_id fs with
  | Except.ok (p, fs2) => (Except.ok p, fs2)
  | Except.error _ => (Except.error (pv "Failed to generate QR code"), fs)

/-- One row of the `attendance` table. -/
structure Row where
  id : Nat
  user_id : PyStr
  timestamp : Nat
  created_at : Nat
deriving DecidableEq

/-- The `attendance` table: the stored rows plus the AUTOINCREMENT counter. -/
structure Table where
  rows : List Row
  nextId : Nat
deriving DecidableEq

/-- A successful `INSERT INTO attendance (user_id) VALUES (?)`: one new row,
    `id` assigned from the autoincrement counter and `timestamp`/`created_at`
    from `CURRENT_TIMESTAMP` at insert time. -/
def mark_attendance (now : Nat) (user_id : PyStr) (t : Table) : Table :=
  { rows := t.rows ++
      [{ id := t.nextId, user_id := user_id, timestamp := now, created_at := now }],
    nextId := t.nextId + 1 }

/-- `ORDER BY timestamp DESC` as a relation on rows. -/
def tsGE (a b : Row) : Prop := b.timestamp ≤ a.timestamp

instance : DecidableRel tsGE := fun a b => Nat.decLe b.timestamp a.timestamp

instance : IsTotal Row tsGE := ⟨by intro a b; unfold tsGE; exact Nat.le_total _ _⟩

instance : IsTrans Row tsGE :=
  ⟨by intro a b c h₁ h₂; unfold tsGE at h₁ h₂ ⊢; exact Nat.le_trans h₂ h₁⟩

/-- A successful `SELECT * FROM attendance ORDER BY timestamp DESC`
    (src/app.py:114-118): every row, ordered by timestamp descending.  SQLite
    leaves the relative order of equal timestamps unspecified; the model picks
    a stable sort, which is one SQLite-compliant answer. -/
def get_attendance_records (t : Table) : List Row :=
  List.insertionSort tsGE t.rows

/-- `Database.init_db` (src/app.py:74-93): `CREATE TABLE IF NOT EXISTS`
    creates an empty table (AUTOINCREMENT ids start at 1) only when none
    exists; an existing table and its rows are untouched. -/
def init_db (db : Option Table) : Option Table :=
  match db with
  | none => some { rows := [], nextId := 1 }
  | some t => some t

/-- Well-formedness guaranteed by the schema: primary-key ids are pairwise
    distinct and below the autoincrement counter. -/
def tableWF (t : Table) : Prop :=
  (∀ r ∈ t.rows, r.id < t.nextId) ∧ t.rows.Pairwise (fun a b => a.id ≠ b.id)

/-- Repeated successful `mark_attendance` calls for one user, at the given
    insertion times. -/
def marks (user_id : PyStr) (tss : List Nat) (t : Table) : Table :=
  tss.foldl (fun acc now => mark_attendance now user_id acc) t

/-- `AttendanceService.mark_attendance` (src/app.py:99-109) with its failure
    modes and connection accounting.  The pair's second component counts the
    connections still open at the moment control returns to the route
    handler: `sqlite3`'s `with` block only commits or rolls back — it never
    closes — and no code path calls `conn.close()`.  When `get_connection`
    itself fails (the `conn_ok` oracle) no connection was ever created (0
    open).  On the success path the method frame is torn down at the return,
    so CPython's refcounting disposes of the connection as the call returns
    (0 open).  But when the INSERT raises (the `exec_ok` oracle), the raised
    `DatabaseError` carries a traceback that pins the service frame — and the
    connection it references — alive into the route handler's `except`
    block, so one connection is still open when the HTTP layer takes back
    control (1 open). -/
def mark_attendance_svc (conn_ok exec_ok : Bool) (now : Nat) (user_id : PyStr)
    (t : Table) : Except PyStr Table × Nat :=
  if conn_ok then
    if exec_ok then (Except.ok (mark_attendance now user_id t), 0)
    else (Except.error (pv "Failed to mark attendance"), 1)
  else (Except.error (pv "Failed to connect to database"), 0)

/-- `AttendanceService.get_attendance_records` (src/app.py:111-121), with the
    same failure modes and connection accounting as marking. -/
def get_attendance_records_svc (conn_ok exec_ok : Bool) (t : Table) :
    Except PyStr (List Row) × Nat :=
  if conn_ok then
    if exec_ok then (Except.ok (get_attendance_records t), 0)
    else (Except.error (pv "Failed to retrieve attendance records"), 1)
  else (Except.error (pv "Failed to connect to database"), 0)

/-- JSON response bodies produced by the three routes. -/
inductive JsonResp where
  | errBody (msg : PyStr)
  | msgBody (msg : PyStr)
  | msgPath (msg qr_path : PyStr)
  | records (rs : List Row)
deriving DecidableEq

/-- A parsed JSON request body: `none` models an absent or null body and the
    association list models the parsed object (`request.get_json()`); Python's
    `not data` is true for both `None` and the empty dict. -/
abbrev ReqData := Option (List (PyStr × PyStr))

/-- Python `dict.get(key)` on the parsed object: `none` models both a missing
    key and a null value. -/
def pyGet (obj : List (PyStr × PyStr)) (key : PyStr) : Option PyStr :=
  (obj.find? (fun kv => kv.1 == key)).map (fun kv => kv.2)

/-- The mutable world the app touches: the attendance table and the set of
    files in the QR output directory. -/
structure AppState where
  db : Table
  fs : List PyStr
deriving DecidableEq

/-- The `/api/generate_qr` POST route (src/app.py:162-185): reject a falsy
    body, validate the user id, call the QR service, and map `QRCodeError`
    to a 500 carrying the exception's message. -/
def generate_qr_handler (encode_ok write_ok : Bool) (qr_codes_dir : PyStr)
    (data : ReqData) (st : AppState) : (Nat × JsonResp) × AppState :=
  match data with
  | none => ((400, JsonResp.errBody (pv "No data provided")), st)
  | some obj =>
    if obj.isEmpty then ((400, JsonResp.errBody (pv "No data provided")), st)
    else
      let uid := pyGet obj (pv "user_id")
      if validate_user_id uid then
        match uid with
        | some u =>
          match generate_qr_code encode_ok write_ok qr_codes_dir u st.fs with
          | (Except.ok p, fs2) =>
            ((200, JsonResp.msgPath (pv "QR Code generated successfully") p),
              { st with fs := fs2 })
          | (Except.error m, fs2) => ((500, JsonResp.errBody m), { st with fs := fs2 })
        | none =>
          -- unreachable: validate_user_id none = false
          ((400, JsonResp.errBody (pv "Invalid user ID")), st)
      else ((400, JsonResp.errBody (pv "Invalid user ID")), st)

/-- The `/api/mark_attendance` POST route (src/app.py:187-207): reject a falsy
    body, validate the user id, call the attendance service, and map
    `DatabaseError` to a 500 carrying the exception's message. -/
def mark_attendance_handler (conn_ok exec_ok : Bool) (now : Nat)
    (data : ReqData) (st : AppState) : (Nat × JsonResp) × AppState :=
  match data with
  | none => ((400, JsonResp.errBody (pv "No data provided")), st)
  | some obj =>
    if obj.isEmpty then ((400, JsonResp.errBody (pv "No data provided")), st)
    else
      let uid := pyGet obj (pv "user_id")
      if validate_user_id uid then
        match uid with
        | some u =>
          match mark_attendance_svc conn_ok exec_ok now u st.db with
          | (Except.ok t2, _) =>
            ((200, JsonResp.msgBody (pv "Attendance marked successfully")), { st with db := t2 })
          | (Except.error m, _) => ((500, JsonResp.errBody m), st)
        | none =>
          -- unreachable: validate_user_id none = false
          ((400, JsonResp.errBody (pv "Invalid user ID")), st)
      else ((400, JsonResp.errBody (pv "Invalid user ID")), st)

/-- The `/api/get_attendance` GET route (src/app.py:209-220). -/
def get_attendance_handler (conn_ok exec_ok : Bool) (st : AppState) :
    (Nat × JsonResp) × AppState :=
  match get_attendance_records_svc conn_ok exec_ok st.db with
  | (Except.ok rs, _) => ((200, JsonResp.records rs), st)
  | (Except.error m, _) => ((500, JsonResp.errBody m), st)

/-! ### Helper lemmas about the string primitives -/

theorem splitChar_cons (sep c : Char) (s : PyStr) :
    splitChar sep (c :: s) =
      if c = sep then [] :: splitChar sep s
      else (c :: (splitChar sep s).headI) :: (splitChar sep s).tail := rfl

theorem splitChar_ne_nil (sep : Char) (s : PyStr) : splitChar sep s ≠ [] := by
  cases s with
  | nil => simp [splitChar]
  | cons c s => rw [splitChar_cons]; split <;> simp

theorem exists_splitChar_cons (sep : Char) (s : PyStr) :
    ∃ h t, splitChar sep s = h :: t := by
  cases hs : splitChar sep s with
  | nil => exact absurd hs (splitChar_ne_nil sep s)
  | cons h t => exact ⟨h, t, rfl⟩

theorem not_sep_mem_splitChar (sep : Char) (s : PyStr) :
    ∀ x ∈ splitChar sep s, sep ∉ x := by
  induction s with
  | nil =>
    intro x hx
    simp [splitChar] at hx
    simp [hx]
  | cons c s ih =>
    intro x hx
    rw [splitChar_cons] at hx
    by_cases hc : c = sep
    · rw [if_pos hc] at hx
      rcases List.mem_cons.mp hx with h | h
      · simp [h]
      · exact ih x h
    · rw [if_neg hc] at hx
      obtain ⟨h, t, hsplit⟩ := exists_splitChar_cons sep s
      rw [hsplit] at hx
      simp only [List.headI, List.tail] at hx
      rcases List.mem_cons.mp hx with h' | h'
      · subst h'
        intro hmem
        rcases List.mem_cons.mp hmem with h'' | h''
        · exact hc h''.symm
        · exact ih h (by rw [hsplit]; exact List.mem_cons_self _ _) h''
      · exact ih x (by rw [hsplit]; exact List.mem_cons_of_mem _ h')

theorem splitChar_of_not_mem {sep : Char} {s : PyStr} (h : sep ∉ s) :
    splitChar sep s = [s] := by
  induction s with
  | nil => rfl
  | cons c s ih =>
    have hc : c ≠ sep := fun he => h (by rw [he]; exact List.mem_cons_self _ _)
    have hs : sep ∉ s := fun hm => h (List.mem_cons_of_mem _ hm)
    rw [splitChar_cons, if_neg hc, ih hs]
    simp [List.headI, List.tail]

theorem splitChar_append_sep {sep : Char} {x : PyStr} (r : PyStr) (h : sep ∉ x) :
    splitChar sep (x ++ sep :: r) = x :: splitChar sep r := by
  induction x with
  | nil => simp [splitChar]
  | cons c x ih =>
    have hc : c ≠ sep := fun he => h (by rw [he]; exact List.mem_cons_self _ _)
    have hx : sep ∉ x := fun hm => h (List.mem_cons_of_mem _ hm)
    rw [List.cons_append, splitChar_cons, if_neg hc, ih hx]
    simp [List.headI, List.tail]

theorem splitChar_joinSlash {l : List PyStr} (hne : l ≠ [])
    (hall : ∀ x ∈ l, '/' ∉ x) : splitChar '/' (joinSlash l) = l := by
  induction l with
  | nil => exact absurd rfl hne
  | cons x l ih =>
    cases l with
    | nil => exact splitChar_of_not_mem (hall x (List.mem_cons_self _ _))
    | cons y t =>
      rw [show joinSlash (x :: y :: t) = x ++ '/' :: joinSlash (y :: t) from rfl]
      rw [splitChar_append_sep _ (hall x (List.mem_cons_self _ _))]
      rw [ih (by simp) (fun z hz => hall z (List.mem_cons_of_mem _ hz))]

theorem splitChar_append_ends {sep : Char} (s : PyStr) {t : PyStr} (ht : sep ∉ t) :
    ∃ cs lc, splitChar sep (s ++ t) = cs ++ [lc] ∧ t <:+ lc := by
  induction s with
  | nil =>
    refine ⟨[], t, ?_, List.suffix_refl t⟩
    rw [List.nil_append, splitChar_of_not_mem ht, List.nil_append]
  | cons c s ih =>
    obtain ⟨cs, lc, he, hsuf⟩ := ih
    by_cases hc : c = sep
    · refine ⟨[] :: cs, lc, ?_, hsuf⟩
      rw [List.cons_append, splitChar_cons, if_pos hc, he, List.cons_append]
    · cases cs with
      | nil =>
        refine ⟨[], c :: lc, ?_, hsuf.trans (List.suffix_cons c lc)⟩
        rw [List.cons_append, splitChar_cons, if_neg hc, he]
        simp [List.headI, List.tail]
      | cons h cs' =>
        refine ⟨(c :: h) :: cs', lc, ?_, hsuf⟩
        rw [List.cons_append, splitChar_cons, if_neg hc, he]
        simp [List.headI, List.tail]

theorem pyStartsWith_append (a b : PyStr) : pyStartsWith (a ++ b) a = true := by
  induction a with
  | nil => cases b <;> rfl
  | cons c a ih => simp [pyStartsWith, ih]

theorem mem_of_pyStartsWith {s p : PyStr} (h : pyStartsWith s p = true) :
    ∀ c ∈ p, c ∈ s := by
  induction p generalizing s with
  | nil => intro c hc; simp at hc
  | cons q ps ih =>
    intro c hc
    cases s with
    | nil => simp [pyStartsWith] at h
    | cons a s' =>
      simp only [pyStartsWith, Bool.and_eq_true, beq_iff_eq] at h
      rcases List.mem_cons.mp hc with h' | h'
      · subst h'; rw [h.1]; exact List.mem_cons_self _ _
      · exact List.mem_cons_of_mem _ (ih h.2 c h')

theorem pyStartsWith_false_of_not_mem {s : PyStr} {c : Char} {p : PyStr}
    (h : c ∉ s) (hc : c ∈ p) : pyStartsWith s p = false := by
  cases hb : pyStartsWith s p with
  | false => rfl
  | true => exact absurd (mem_of_pyStartsWith hb c hc) h

theorem fsWrite_mem (p : PyStr) (fs : List PyStr) : p ∈ fsWrite p fs := by
  unfold fsWrite
  split
  · assumption
  · simp

theorem fsWrite_idem (p : PyStr) (fs : List PyStr) :
    fsWrite p (fsWrite p fs) = fsWrite p fs := by
  unfold fsWrite
  rw [if_pos]
  exact fsWrite_mem p fs

/-! ### Invariants of the normpath component loop -/

theorem normStep_cases (b : Bool) (acc : List PyStr) (comp : PyStr) :
    normStep b acc comp = acc ∨ normStep b acc comp = acc ++ [comp] ∨
      normStep b acc comp = acc.dropLast := by
  unfold normStep
  split
  · exact Or.inl rfl
  · split
    · exact Or.inr (Or.inl rfl)
    · exact Or.inr (Or.inr rfl)

theorem mem_normStep {b : Bool} {acc : List PyStr} {comp x : PyStr}
    (hx : x ∈ normStep b acc comp) : x ∈ acc ∨ x = comp := by
  rcases normStep_cases b acc comp with h | h | h <;> rw [h] at hx
  · exact Or.inl hx
  · rcases List.mem_append.mp hx with h' | h'
    · exact Or.inl h'
    · exact Or.inr (List.mem_singleton.mp h')
  · exact Or.inl ((List.dropLast_sublist acc).subset hx)

theorem mem_foldl_normStep (b : Bool) (cs : List PyStr) :
    ∀ (acc : List PyStr), ∀ x ∈ cs.foldl (normStep b) acc, x ∈ acc ∨ x ∈ cs := by
  induction cs with
  | nil => intro acc x hx; exact Or.inl hx
  | cons c cs ih =>
    intro acc x hx
    rw [List.foldl_cons] at hx
    rcases ih (normStep b acc c) x hx with h | h
    · rcases mem_normStep h with h' | h'
      · exact Or.inl h'
      · exact Or.inr (by rw [h']; exact List.mem_cons_self _ _)
    · exact Or.inr (List.mem_cons_of_mem _ h)

theorem mem_normParts {b : Bool} {cs : List PyStr} :
    ∀ x ∈ normParts b cs, x ∈ cs := by
  intro x hx
  rcases mem_foldl_normStep b cs [] x hx with h | h
  · simp at h
  · exact h

theorem good_normStep {b : Bool} {acc : List PyStr} {comp x : PyStr}
    (hacc : ∀ y ∈ acc, y ≠ [] ∧ y ≠ ['.'])
    (hx : x ∈ normStep b acc comp) : x ≠ [] ∧ x ≠ ['.'] := by
  unfold normStep at hx
  split at hx
  · exact hacc x hx
  · rename_i hguard
    split at hx
    · rcases List.mem_append.mp hx with h' | h'
      · exact hacc x h'
      · have hxc : x = comp := List.mem_singleton.mp h'
        subst hxc
        push_neg at hguard
        exact hguard
    · exact hacc x ((List.dropLast_sublist acc).subset hx)

theorem good_foldl_normStep (b : Bool) (cs : List PyStr) :
    ∀ acc, (∀ y ∈ acc, y ≠ [] ∧ y ≠ ['.']) →
      ∀ x ∈ cs.foldl (normStep b) acc, x ≠ [] ∧ x ≠ ['.'] := by
  induction cs with
  | nil => intro acc hacc x hx; exact hacc x hx
  | cons c cs ih =>
    intro acc hacc x hx
    rw [List.foldl_cons] at hx
    exact ih (normStep b acc c) (fun y hy => good_normStep hacc hy) x hx

theorem good_normParts {b : Bool} {cs : List PyStr} :
    ∀ x ∈ normParts b cs, x ≠ [] ∧ x ≠ ['.'] :=
  good_foldl_normStep b cs [] (by intro y hy; simp at hy)

theorem ddinv_normStep {b : Bool} {acc : List PyStr} {comp : PyStr}
    (h : DDinv acc) : DDinv (normStep b acc comp) := by
  obtain ⟨k, rest, hacc, hdd⟩ := h
  unfold normStep
  split
  · exact ⟨k, rest, hacc, hdd⟩
  · split
    · rename_i hcond
      by_cases hc : comp = DD
      · subst hc
        rcases hcond with h1 | h2 | h3
        · exact absurd rfl h1
        · rw [h2.2]
          exact ⟨1, [], by simp, by simp⟩
        · have hrest : rest = [] := by
            by_contra hne
            have hlast := List.getLast?_append_of_ne_nil (List.replicate k DD) hne
            rw [← hacc, h3.2] at hlast
            exact hdd (List.mem_of_getLast?_eq_some hlast.symm)
          subst hrest
          rw [hacc, List.append_nil]
          exact ⟨k + 1, [], by rw [List.replicate_succ', List.append_nil], by simp⟩
      · refine ⟨k, rest ++ [comp], by rw [hacc, List.append_assoc], ?_⟩
        intro hmem
        rcases List.mem_append.mp hmem with h' | h'
        · exact hdd h'
        · exact hc (List.mem_singleton.mp h').symm
    · cases hrest : rest with
      | nil =>
        subst hrest
        rw [hacc, List.append_nil]
        cases k with
        | zero => exact ⟨0, [], by simp, by simp⟩
        | succ k' =>
          rw [List.replicate_succ', List.dropLast_concat]
          exact ⟨k', [], (List.append_nil _).symm, by simp⟩
      | cons r0 rs =>
        rw [hacc, List.dropLast_append_of_ne_nil _ (by rw [hrest]; simp)]
        exact ⟨k, rest.dropLast, rfl, fun hm => hdd ((List.dropLast_sublist rest).subset hm)⟩

theorem foldl_ddinv (b : Bool) (cs : List PyStr) :
    ∀ acc, DDinv acc → DDinv (cs.foldl (normStep b) acc) := by
  induction cs with
  | nil => intro acc h; exact h
  | cons c cs ih =>
    intro acc h
    rw [List.foldl_cons]
    exact ih _ (ddinv_normStep h)

theorem ddinv_normParts (b : Bool) (cs : List PyStr) : DDinv (normParts b cs) :=
  foldl_ddinv b cs [] ⟨0, [], rfl, by simp⟩

theorem normParts_append_last (b : Bool) (cs : List PyStr) {lc : PyStr}
    (h1 : lc ≠ []) (h2 : lc ≠ ['.']) (h3 : lc ≠ DD) :
    normParts b (cs ++ [lc]) = normParts b cs ++ [lc] := by
  unfold normParts
  rw [List.foldl_append, List.foldl_cons, List.foldl_nil]
  unfold normStep
  rw [if_neg (by push_neg; exact ⟨h1, h2⟩), if_pos (Or.inl h3)]

theorem joinSlash_cons_cons (x y : PyStr) (l : List PyStr) :
    joinSlash (x :: y :: l) = x ++ '/' :: joinSlash (y :: l) := rfl

theorem joinSlash_ne_nil {l : List PyStr} (hne : l ≠ []) (hall : ∀ x ∈ l, x ≠ []) :
    joinSlash l ≠ [] := by
  cases l with
  | nil => exact absurd rfl hne
  | cons x l =>
    cases l with
    | nil => exact hall x (List.mem_cons_self _ _)
    | cons y t =>
      rw [joinSlash_cons_cons]
      cases x <;> simp

/-! ### Confinement of safe_join results -/

theorem pv_slash : pv "/" = ['/'] := rfl

theorem pv_ddslash : pv "../" = ['.', '.', '/'] := rfl

theorem pv_png : pv ".png" = ['.', 'p', 'n', 'g'] := rfl

theorem pyStartsWith_nil (s : PyStr) : pyStartsWith s [] = true := by
  cases s <;> rfl

theorem pyStartsWith_cons (c d : Char) (s p : PyStr) :
    pyStartsWith (c :: s) (d :: p) = ((c == d) && pyStartsWith s p) := rfl

theorem initSlashes_pos {path : PyStr} (h : pyStartsWith path (pv "/") = true) :
    initSlashes path = 1 ∨ initSlashes path = 2 := by
  unfold initSlashes
  rw [if_pos h]
  split
  · exact Or.inr rfl
  · exact Or.inl rfl

theorem initSlashes_zero {path : PyStr} (h : pyStartsWith path (pv "/") = false) :
    initSlashes path = 0 := by
  unfold initSlashes
  rw [h]
  rfl

theorem normpath_startsWith_slash {path : PyStr} (hne : path ≠ [])
    (h : pyStartsWith path (pv "/") = true) :
    pyStartsWith (normpath path) (pv "/") = true := by
  unfold normpath
  rw [if_neg hne, pv_slash]
  rcases initSlashes_pos h with h1 | h1 <;> rw [h1] <;>
    simp [pyStartsWith_cons, pyStartsWith_nil, List.replicate]

theorem safe_join_confined {d f p : PyStr}
    (hd : d ≠ []) (hd2 : d.getLast? ≠ some '/') (hf : f ≠ [])
    (hlast : ∃ cs lc, splitChar '/' f = cs ++ [lc] ∧ lc ≠ [] ∧ lc ≠ ['.'] ∧ lc ≠ DD)
    (h : safe_join d f = some p) : isConfined d p = true := by
  obtain ⟨cs, lc, hsplit, hlc1, hlc2, hlc3⟩ := hlast
  simp only [safe_join] at h
  rw [if_neg hf, if_neg hd] at h
  split at h
  · exact absurd h (by simp)
  rename_i hcond
  have hb : (pyStartsWith (normpath f) (pv "/") || normpath f == DD ||
      pyStartsWith (normpath f) (pv "../")) = false := Bool.eq_false_iff.mpr hcond
  rw [Bool.or_eq_false_iff, Bool.or_eq_false_iff] at hb
  obtain ⟨⟨hb1, hb2⟩, hb3⟩ := hb
  have hp : p = posixJoin d (normpath f) := (Option.some.inj h).symm
  -- the filename does not start with a slash
  have hfs : pyStartsWith f (pv "/") = false := by
    cases hfs : pyStartsWith f (pv "/") with
    | false => rfl
    | true =>
      rw [normpath_startsWith_slash hf hfs] at hb1
      exact Bool.noConfusion hb1
  -- normalised components
  have hNC : normParts false (splitChar '/' f) = normParts false cs ++ [lc] := by
    rw [hsplit, normParts_append_last false cs hlc1 hlc2 hlc3]
  have hNCne : normParts false (splitChar '/' f) ≠ [] := by
    rw [hNC]; simp
  have hgood : ∀ x ∈ normParts false (splitChar '/' f), x ≠ [] ∧ x ≠ ['.'] :=
    fun x hx => good_normParts x hx
  have hslash : ∀ x ∈ normParts false (splitChar '/' f), '/' ∉ x :=
    fun x hx => not_sep_mem_splitChar '/' f x (mem_normParts x hx)
  have hjoin_ne : joinSlash (normParts false (splitChar '/' f)) ≠ [] :=
    joinSlash_ne_nil hNCne (fun x hx => (hgood x hx).1)
  -- normpath f reduces to the joined normalised components
  have hn : normpath f = joinSlash (normParts false (splitChar '/' f)) := by
    unfold normpath
    rw [if_neg hf, initSlashes_zero hfs]
    simp only [List.replicate, List.nil_append, bne_self_eq_false]
    rw [if_neg hjoin_ne]
  -- no leading run of ".." components
  have hdd : ∀ x ∈ normParts false (splitChar '/' f), x ≠ DD := by
    obtain ⟨k, rest, hrep, hddrest⟩ := ddinv_normParts false (splitChar '/' f)
    cases k with
    | zero =>
      intro x hx
      rw [hrep, List.replicate, List.nil_append] at hx
      exact fun he => hddrest (he ▸ hx)
    | succ k' =>
      exfalso
      rw [List.replicate_succ, List.cons_append] at hrep
      cases hzl : List.replicate k' DD ++ rest with
      | nil =>
        rw [hzl] at hrep
        rw [hn, hrep] at hb2
        simp at hb2
        exact hb2 rfl
      | cons z zs =>
        rw [hzl] at hrep
        rw [hn, hrep, joinSlash_cons_cons] at hb3
        rw [pv_ddslash] at hb3
        simp [DD, pyStartsWith_cons, pyStartsWith_nil] at hb3
  -- assemble the confined path
  rw [hp, hn]
  have hpj : posixJoin d (joinSlash (normParts false (splitChar '/' f)))
      = (d ++ ['/']) ++ joinSlash (normParts false (splitChar '/' f)) := by
    unfold posixJoin
    rw [← hn, hb1, hn]
    rw [if_neg (by simp)]
    rw [if_neg (by push_neg; exact ⟨hd, hd2⟩)]
    simp
  rw [hpj]
  unfold isConfined
  rw [Bool.and_eq_true]
  constructor
  · exact pyStartsWith_append _ _
  · rw [List.drop_left' (by simp)]
    rw [splitChar_joinSlash hNCne hslash]
    rw [List.all_eq_true]
    intro x hx
    rw [decide_eq_true_eq]
    exact ⟨(hgood x hx).1, (hgood x hx).2, hdd x hx⟩

/-! ### Facts about generate_qr_code -/

theorem splitChar_png_last (uid : PyStr) :
    ∃ cs lc, splitChar '/' (uid ++ pv ".png") = cs ++ [lc] ∧
      lc ≠ [] ∧ lc ≠ ['.'] ∧ lc ≠ DD := by
  obtain ⟨cs, lc, he, hsuf⟩ :=
    splitChar_append_ends uid (show ('/' : Char) ∉ pv ".png" by decide)
  have hlen : (pv ".png").length ≤ lc.length := hsuf.length_le
  rw [pv_png] at hlen
  simp only [List.length_cons, List.length_nil] at hlen
  refine ⟨cs, lc, he, ?_, ?_, ?_⟩
  · intro hx; rw [hx] at hlen; simp at hlen
  · intro hx; rw [hx] at hlen; simp at hlen
  · intro hx; rw [hx] at hlen; simp [DD] at hlen

theorem generate_cases (encode_ok write_ok : Bool) (dir uid : PyStr) (fs : List PyStr) :
    (∃ p, generate_qr_code encode_ok write_ok dir uid fs = (Except.ok p, fsWrite p fs) ∧
        safe_join dir (uid ++ pv ".png") = some p ∧ encode_ok = true ∧ write_ok = true) ∨
    generate_qr_code encode_ok write_ok dir uid fs
      = (Except.error (pv "Failed to generate QR code"), fs) := by
  unfold generate_qr_code generate_qr_code_try
  cases encode_ok with
  | false => exact Or.inr rfl
  | true =>
    cases hsj : safe_join dir (uid ++ pv ".png") with
    | none => exact Or.inr rfl
    | some q =>
      cases write_ok with
      | false => exact Or.inr rfl
      | true => exact Or.inl ⟨q, rfl, rfl, rfl, rfl⟩

theorem generate_ok_inv {encode_ok write_ok : Bool} {dir uid : PyStr}
    {fs : List PyStr} {p : PyStr} {fs2 : List PyStr}
    (h : generate_qr_code encode_ok write_ok dir uid fs = (Except.ok p, fs2)) :
    safe_join dir (uid ++ pv ".png") = some p ∧ fs2 = fsWrite p fs ∧
      encode_ok = true ∧ write_ok = true := by
  rcases generate_cases encode_ok write_ok dir uid fs with ⟨q, hq, hsj, he, hw⟩ | herr
  · rw [h] at hq
    have h1 : p = q := by
      have := congrArg Prod.fst hq
      simpa using this
    subst h1
    have h2 : fs2 = fsWrite p fs := by
      have := congrArg Prod.snd hq
      simpa using this
    exact ⟨hsj, h2, he, hw⟩
  · rw [h] at herr
    have := congrArg Prod.fst herr
    simp at this

theorem safe_join_no_slash {d uid : PyStr} (hd : d ≠ []) (hd2 : d.getLast? ≠ some '/')
    (hu : '/' ∉ uid) :
    safe_join d (uid ++ pv ".png") = some (d ++ '/' :: (uid ++ pv ".png")) := by
  have hfne : uid ++ pv ".png" ≠ [] := by simp [pv_png]
  have hmem : '/' ∉ uid ++ pv ".png" := by
    rw [pv_png]
    intro hm
    rcases List.mem_append.mp hm with h | h
    · exact hu h
    · simp at h
  have hfs : pyStartsWith (uid ++ pv ".png") (pv "/") = false :=
    pyStartsWith_false_of_not_mem hmem (by rw [pv_slash]; simp)
  have hsplit : splitChar '/' (uid ++ pv ".png") = [uid ++ pv ".png"] :=
    splitChar_of_not_mem hmem
  have h2 : uid ++ pv ".png" ≠ ['.'] := by
    intro hx
    have hlen := congrArg List.length hx
    simp [pv_png] at hlen
  have h3 : uid ++ pv ".png" ≠ DD := by
    intro hx
    have hlen := congrArg List.length hx
    simp [pv_png, DD] at hlen
  have hparts : normParts false [uid ++ pv ".png"] = [uid ++ pv ".png"] := by
    have := normParts_append_last false [] hfne h2 h3
    simpa using this
  have hn : normpath (uid ++ pv ".png") = uid ++ pv ".png" := by
    unfold normpath
    rw [if_neg hfne, initSlashes_zero hfs, hsplit]
    simp only [List.replicate, List.nil_append, bne_self_eq_false]
    rw [hparts, show joinSlash [uid ++ pv ".png"] = uid ++ pv ".png" from rfl,
      if_neg hfne]
  have hc2 : ((uid ++ pv ".png") == DD) = false := by
    rw [beq_eq_false_iff_ne]
    exact h3
  have hc3 : pyStartsWith (uid ++ pv ".png") (pv "../") = false :=
    pyStartsWith_false_of_not_mem hmem (by rw [pv_ddslash]; simp)
  simp only [safe_join]
  rw [if_neg hfne, if_neg hd, hn, hfs, hc2, hc3]
  simp only [Bool.or_self, Bool.or_false, Bool.false_eq_true, if_false]
  unfold posixJoin
  rw [hfs]
  simp only [Bool.false_eq_true, if_false]
  rw [if_neg (by push_neg; exact ⟨hd, hd2⟩)]

theorem safe_join_some_eq {d f p : PyStr} (hd : d ≠ []) (hf : f ≠ [])
    (h : safe_join d f = some p) : p = posixJoin d (normpath f) := by
  simp only [safe_join] at h
  rw [if_neg hf, if_neg hd] at h
  split at h
  · exact absurd h (by simp)
  · exact (Option.some.inj h).symm

/-! ### Validation and attendance-table lemmas -/

theorem validate_iff (u : Option PyStr) :
    validate_user_id u = true ↔ specValidUserId u := by
  cases u with
  | none => simp [validate_user_id, specValidUserId]
  | some s =>
    simp only [validate_user_id, specValidUserId, Bool.and_eq_true, Bool.not_eq_true',
      List.isEmpty_eq_false, decide_eq_true_eq]
    constructor
    · rintro ⟨⟨_, h2⟩, h3⟩
      exact ⟨h2, h3⟩
    · rintro ⟨h2, h3⟩
      refine ⟨⟨?_, h2⟩, h3⟩
      intro hs
      subst hs
      exact h2 rfl

theorem validate_none : validate_user_id none = false := rfl

theorem markWF {now : Nat} {user_id : PyStr} {t : Table} (h : tableWF t) :
    tableWF (mark_attendance now user_id t) := by
  obtain ⟨hlt, hpw⟩ := h
  constructor
  · intro r hr
    rcases List.mem_append.mp hr with h' | h'
    · exact Nat.lt_trans (hlt r h') (Nat.lt_succ_self _)
    · rw [List.mem_singleton.mp h']
      exact Nat.lt_succ_self _
  · rw [show (mark_attendance now user_id t).rows = t.rows ++
      [{ id := t.nextId, user_id := user_id, timestamp := now, created_at := now }] from rfl]
    rw [List.pairwise_append]
    refine ⟨hpw, List.pairwise_singleton _ _, ?_⟩
    intro a ha b hb
    rw [List.mem_singleton.mp hb]
    exact Nat.ne_of_lt (hlt a ha)

theorem marks_cons (user_id : PyStr) (ts : Nat) (tss : List Nat) (t : Table) :
    marks user_id (ts :: tss) t = marks user_id tss (mark_attendance ts user_id t) := rfl

theorem marksWF (user_id : PyStr) (tss : List Nat) :
    ∀ t : Table, tableWF t →
      tableWF (marks user_id tss t) ∧
      (marks user_id tss t).rows.length = t.rows.length + tss.length ∧
      ∀ r ∈ (marks user_id tss t).rows, r ∈ t.rows ∨ r.user_id = user_id := by
  induction tss with
  | nil =>
    intro t ht
    exact ⟨ht, by simp [marks], fun r hr => Or.inl hr⟩
  | cons ts tss ih =>
    intro t ht
    rw [marks_cons]
    obtain ⟨hwf, hlen, hmem⟩ := ih (mark_attendance ts user_id t) (markWF ht)
    refine ⟨hwf, ?_, ?_⟩
    · rw [hlen]
      simp [mark_attendance]
      omega
    · intro r hr
      rcases hmem r hr with h' | h'
      · rcases List.mem_append.mp h' with h'' | h''
        · exact Or.inl h''
        · exact Or.inr (by rw [List.mem_singleton.mp h''])
      · exact Or.inr h'

/-! ### Handler-level helper lemmas -/

theorem handlers_invalid_400 {obj : List (PyStr × PyStr)}
    (hne : obj ≠ []) (hval : validate_user_id (pyGet obj (pv "user_id")) = false) :
    ∀ (encode_ok write_ok conn_ok exec_ok : Bool) (dir : PyStr) (now : Nat) (st : AppState),
      generate_qr_handler encode_ok write_ok dir (some obj) st
        = ((400, JsonResp.errBody (pv "Invalid user ID")), st) ∧
      mark_attendance_handler conn_ok exec_ok now (some obj) st
        = ((400, JsonResp.errBody (pv "Invalid user ID")), st) := by
  intro e w c x dir now st
  constructor
  · simp only [generate_qr_handler, hval]
    rw [if_neg (by simpa using hne)]
    simp
  · simp only [mark_attendance_handler, hval]
    rw [if_neg (by simpa using hne)]
    simp

theorem generate_handler_db (encode_ok write_ok : Bool) (dir : PyStr)
    (data : ReqData) (st : AppState) :
    ((generate_qr_handler encode_ok write_ok dir data st).2).db = st.db := by
  cases data with
  | none => rfl
  | some obj =>
    simp only [generate_qr_handler]
    split
    · rfl
    · split
      · split
        · split <;> rfl
        · rfl
      · rfl

theorem mark_svc_ok_inv {conn_ok exec_ok : Bool} {now : Nat} {u : PyStr}
    {t t2 : Table} {n : Nat}
    (h : mark_attendance_svc conn_ok exec_ok now u t = (Except.ok t2, n)) :
    t2 = mark_attendance now u t := by
  unfold mark_attendance_svc at h
  cases conn_ok with
  | false => simp at h
  | true =>
    cases exec_ok with
    | false => simp at h
    | true =>
      simp only [if_true] at h
      have := congrArg Prod.fst h
      simpa using this.symm

theorem mark_handler_db_grows (conn_ok exec_ok : Bool) (now : Nat)
    (data : ReqData) (st : AppState) :
    st.db.rows <+: ((mark_attendance_handler conn_ok exec_ok now data st).2).db.rows := by
  cases data with
  | none => exact List.prefix_refl _
  | some obj =>
    simp only [mark_attendance_handler]
    split
    · exact List.prefix_refl _
    · split
      · split
        · split
          · rename_i u t2 tr heq
            rw [show ({ st with db := t2 } : AppState).db = t2 from rfl]
            rw [mark_svc_ok_inv heq]
            exact List.prefix_append _ _
          · exact List.prefix_refl _
        · exact List.prefix_refl _
      · exact List.prefix_refl _

theorem get_handler_state (conn_ok exec_ok : Bool) (st : AppState) :
    (get_attendance_handler conn_ok exec_ok st).2 = st := by
  unfold get_attendance_handler
  split <;> rfl

/-! ### Claim theorems -/

/-- C1 (counterexample): the claim quantifies over every `user_id` containing a
    path-traversal sequence, but `"a/../b"` contains `"../"` and yet
    `generate_qr_code` succeeds: `safe_join` normalises the filename to
    `"b.png"` and the service writes `"qrcodes/b.png"` (inside the output
    directory) instead of raising `QRCodeError`. -/
theorem C1_counterexample :
    pv "../" <:+: pv "a/../b" ∧
    (generate_qr_code true true (pv "qrcodes") (pv "a/../b") []).1
      = Except.ok (pv "qrcodes/b.png") := by
  constructor
  · exact ⟨pv "a/", pv "b", by decide⟩
  · rfl

/-- C1 (amended): every `user_id` whose combined filename `safe_join` rejects
    (those normalising to an absolute path, to `".."`, or to a `"../"`-prefixed
    path, e.g. `"../evil"`) makes `generate_qr_code` fail with `QRCodeError`
    while the filesystem is left untouched — the rejection precedes any write;
    and every successful call writes exactly one path, which is lexically
    confined to the output directory.  (A traversal sequence that normalises
    away, e.g. `"a/../b"`, is instead accepted and still writes inside the
    directory.) -/
theorem C1_theorem (encode_ok write_ok : Bool) (dir uid : PyStr) (fs : List PyStr)
    (hd : dir ≠ []) (hd2 : dir.getLast? ≠ some '/') :
    (safe_join dir (uid ++ pv ".png") = none →
      generate_qr_code encode_ok write_ok dir uid fs
        = (Except.error (pv "Failed to generate QR code"), fs)) ∧
    (∀ p fs2, generate_qr_code encode_ok write_ok dir uid fs = (Except.ok p, fs2) →
      isConfined dir p = true ∧ fs2 = fsWrite p fs) := by
  constructor
  · intro hrej
    rcases generate_cases encode_ok write_ok dir uid fs with ⟨p, _, hsj, _⟩ | herr
    · rw [hrej] at hsj; cases hsj
    · exact herr
  · intro p fs2 hok
    obtain ⟨hsj, hfs2, _, _⟩ := generate_ok_inv hok
    exact ⟨safe_join_confined hd hd2 (by simp [pv_png]) (splitChar_png_last uid) hsj,
      hfs2⟩

/-- C1 (witness): `"../evil"` is rejected with no filesystem change, and the
    successful `"alice"` call writes one confined path. -/
theorem C1_witness :
    generate_qr_code true true (pv "qrcodes") (pv "../evil") []
      = (Except.error (pv "Failed to generate QR code"), []) ∧
    (isConfined (pv "qrcodes") (pv "qrcodes/alice.png") = true ∧
      [pv "qrcodes/alice.png"] = fsWrite (pv "qrcodes/alice.png") []) :=
  ⟨(C1_theorem true true (pv "qrcodes") (pv "../evil") [] (by decide) (by decide)).1
      (by rfl),
   (C1_theorem true true (pv "qrcodes") (pv "alice") [] (by decide) (by decide)).2
      (pv "qrcodes/alice.png") [pv "qrcodes/alice.png"] (by rfl)⟩

/-- C2: `validate_user_id` accepts a candidate exactly when it is non-null,
    its trimmed form is non-empty and its untrimmed length is at most 50; any
    other candidate submitted to either POST endpoint draws a 400 response
    with a structured error body and an unchanged state. -/
theorem C2_theorem :
    (∀ u, validate_user_id u = true ↔ specValidUserId u) ∧
    (∀ (encode_ok write_ok : Bool) (dir : PyStr) (obj : List (PyStr × PyStr))
      (st : AppState),
      obj ≠ [] → validate_user_id (pyGet obj (pv "user_id")) = false →
      generate_qr_handler encode_ok write_ok dir (some obj) st
        = ((400, JsonResp.errBody (pv "Invalid user ID")), st)) ∧
    (∀ (conn_ok exec_ok : Bool) (now : Nat) (obj : List (PyStr × PyStr))
      (st : AppState),
      obj ≠ [] → validate_user_id (pyGet obj (pv "user_id")) = false →
      mark_attendance_handler conn_ok exec_ok now (some obj) st
        = ((400, JsonResp.errBody (pv "Invalid user ID")), st)) := by
  refine ⟨validate_iff, ?_, ?_⟩
  · intro e w dir obj st hne hval
    exact (handlers_invalid_400 hne hval e w true true dir 0 st).1
  · intro c x now obj st hne hval
    exact (handlers_invalid_400 hne hval true true c x (pv "") now st).2

/-- C2 (witness): `"alice"` satisfies the rule; a whitespace-only id draws a
    400 from both endpoints. -/
theorem C2_witness :
    (validate_user_id (some (pv "alice")) = true ↔ specValidUserId (some (pv "alice"))) ∧
    generate_qr_handler true true (pv "qrcodes")
        (some [(pv "user_id", pv "   ")]) ⟨⟨[], 1⟩, []⟩
      = ((400, JsonResp.errBody (pv "Invalid user ID")), ⟨⟨[], 1⟩, []⟩) ∧
    mark_attendance_handler true true 0
        (some [(pv "user_id", pv "   ")]) ⟨⟨[], 1⟩, []⟩
      = ((400, JsonResp.errBody (pv "Invalid user ID")), ⟨⟨[], 1⟩, []⟩) :=
  ⟨C2_theorem.1 (some (pv "alice")),
   C2_theorem.2.1 true true (pv "qrcodes") [(pv "user_id", pv "   ")] ⟨⟨[], 1⟩, []⟩
     (by decide) (by decide),
   C2_theorem.2.2 true true 0 [(pv "user_id", pv "   ")] ⟨⟨[], 1⟩, []⟩
     (by decide) (by decide)⟩

/-- C3: for every request whose body is falsy or whose user id fails
    validation (missing/null, blank, or longer than 50), both POST endpoints
    answer 400 and leave the stored table and the output directory exactly as
    they were. -/
theorem C3_theorem :
    ∀ (encode_ok write_ok conn_ok exec_ok : Bool) (dir : PyStr) (now : Nat)
      (data : ReqData) (st : AppState),
      (match data with
       | none => True
       | some obj => obj = [] ∨ validate_user_id (pyGet obj (pv "user_id")) = false) →
      ((generate_qr_handler encode_ok write_ok dir data st).1.1 = 400 ∧
        (generate_qr_handler encode_ok write_ok dir data st).2 = st) ∧
      ((mark_attendance_handler conn_ok exec_ok now data st).1.1 = 400 ∧
        (mark_attendance_handler conn_ok exec_ok now data st).2 = st) := by
  intro e w c x dir now data st hdata
  cases data with
  | none => exact ⟨⟨rfl, rfl⟩, ⟨rfl, rfl⟩⟩
  | some obj =>
    rcases hdata with hobj | hval
    · subst hobj
      exact ⟨⟨rfl, rfl⟩, ⟨rfl, rfl⟩⟩
    · by_cases hobj : obj = []
      · subst hobj
        exact ⟨⟨rfl, rfl⟩, ⟨rfl, rfl⟩⟩
      · obtain ⟨hg, hm⟩ := handlers_invalid_400 hobj hval e w c x dir now st
        rw [hg, hm]
        exact ⟨⟨rfl, rfl⟩, ⟨rfl, rfl⟩⟩

/-- C3 (witness): a 51-character id draws a 400 from both endpoints with the
    state unchanged. -/
theorem C3_witness :
    ((generate_qr_handler true true (pv "qrcodes")
        (some [(pv "user_id", List.replicate 51 'a')]) ⟨⟨[], 1⟩, []⟩).1.1 = 400 ∧
      (generate_qr_handler true true (pv "qrcodes")
        (some [(pv "user_id", List.replicate 51 'a')]) ⟨⟨[], 1⟩, []⟩).2 = ⟨⟨[], 1⟩, []⟩) ∧
    ((mark_attendance_handler true true 0
        (some [(pv "user_id", List.replicate 51 'a')]) ⟨⟨[], 1⟩, []⟩).1.1 = 400 ∧
      (mark_attendance_handler true true 0
        (some [(pv "user_id", List.replicate 51 'a')]) ⟨⟨[], 1⟩, []⟩).2 = ⟨⟨[], 1⟩, []⟩) :=
  C3_theorem true true true true (pv "qrcodes") 0
    (some [(pv "user_id", List.replicate 51 'a')]) ⟨⟨[], 1⟩, []⟩ (Or.inr (by decide))

/-- C4: after marking a valid user id, the listing contains a record with that
    id, and the whole returned list is pairwise ordered by timestamp
    descending (each earlier record's timestamp is at least each later
    one's). -/
theorem C4_theorem (now : Nat) (uid : PyStr) (t : Table)
    (h : validate_user_id (some uid) = true) :
    (∃ r ∈ get_attendance_records (mark_attendance now uid t), r.user_id = uid) ∧
    List.Pairwise tsGE (get_attendance_records (mark_attendance now uid t)) := by
  constructor
  · refine ⟨{ id := t.nextId, user_id := uid, timestamp := now, created_at := now },
      ?_, rfl⟩
    unfold get_attendance_records
    rw [(List.perm_insertionSort tsGE _).mem_iff]
    simp [mark_attendance]
  · exact List.sorted_insertionSort tsGE _

/-- C4 (witness): marking `"alice"` on an empty table yields a descending
    listing; `"alice"` is a valid id. -/
theorem C4_witness :
    List.Pairwise tsGE (get_attendance_records (mark_attendance 0 (pv "alice") ⟨[], 1⟩)) ∧
    validate_user_id (some (pv "alice")) = true :=
  ⟨(C4_theorem 0 (pv "alice") ⟨[], 1⟩ (by decide)).2, by decide⟩

/-- C5: a successful `mark` appends exactly one row carrying the given user id
    with store-assigned `id` and `timestamp`; repeated calls with the same id
    each add a distinct row (the id uniqueness of `tableWF` is preserved and
    the row count grows by the number of calls — no deduplication). -/
theorem C5_theorem (now : Nat) (user_id : PyStr) (t : Table) (tss : List Nat)
    (h : tableWF t) :
    (mark_attendance now user_id t).rows
      = t.rows ++
          [{ id := t.nextId, user_id := user_id, timestamp := now, created_at := now }] ∧
    tableWF (marks user_id tss t) ∧
    (marks user_id tss t).rows.length = t.rows.length + tss.length ∧
    ∀ r ∈ (marks user_id tss t).rows, r ∈ t.rows ∨ r.user_id = user_id := by
  obtain ⟨hwf, hlen, hmem⟩ := marksWF user_id tss t h
  exact ⟨rfl, hwf, hlen, hmem⟩

/-- C5 (witness): three marks of `"bob"` on a fresh table give three rows. -/
theorem C5_witness :
    (mark_attendance 7 (pv "bob") ⟨[], 1⟩).rows
      = ([] : List Row) ++
          [{ id := 1, user_id := pv "bob", timestamp := 7, created_at := 7 }] ∧
    (marks (pv "bob") [1, 2, 2] ⟨[], 1⟩).rows.length = ([] : List Row).length + 3 :=
  ⟨(C5_theorem 7 (pv "bob") ⟨[], 1⟩ [1, 2, 2] ⟨by simp, by simp⟩).1,
   (C5_theorem 7 (pv "bob") ⟨[], 1⟩ [1, 2, 2] ⟨by simp, by simp⟩).2.2.1⟩

/-- C6 (counterexample): `"a//b"` passes validation, yet the artifact is
    written to `"qrcodes/a/b.png"` — not to the literal
    `<output_dir>/<user_id>.png` path `"qrcodes/a//b.png"` — because
    `safe_join` normalises the doubled slash away. -/
theorem C6_counterexample :
    validate_user_id (some (pv "a//b")) = true ∧
    (generate_qr_code true true (pv "qrcodes") (pv "a//b") []).1
      = Except.ok (pv "qrcodes/a/b.png") ∧
    pv "qrcodes/a/b.png" ≠ pv "qrcodes" ++ '/' :: (pv "a//b" ++ pv ".png") :=
  ⟨by decide, by rfl, by decide⟩

/-- C6 (amended): for a valid user id containing no `'/'`, a successful
    generate writes exactly `<output_dir>/<user_id>.png` and returns that
    path; for every user id, the path a successful generate writes and
    returns is the normalised form of that template —
    `posixpath.join(output_dir, normpath(user_id + ".png"))` — the only write
    is to that path, and generating again after a success overwrites the same
    single artifact: the file set does not grow. -/
theorem C6_theorem (dir uid : PyStr) (fs : List PyStr)
    (hd : dir ≠ []) (hd2 : dir.getLast? ≠ some '/') :
    (validate_user_id (some uid) = true → '/' ∉ uid →
      generate_qr_code true true dir uid fs
        = (Except.ok (dir ++ '/' :: (uid ++ pv ".png")),
            fsWrite (dir ++ '/' :: (uid ++ pv ".png")) fs)) ∧
    (∀ (encode_ok write_ok : Bool) (p : PyStr) (fs2 : List PyStr),
      generate_qr_code encode_ok write_ok dir uid fs = (Except.ok p, fs2) →
      p = posixJoin dir (normpath (uid ++ pv ".png")) ∧
      fs2 = fsWrite p fs ∧
      generate_qr_code encode_ok write_ok dir uid fs2 = (Except.ok p, fs2)) := by
  constructor
  · intro _hv hu
    have hsj := safe_join_no_slash hd hd2 hu
    unfold generate_qr_code generate_qr_code_try
    rw [hsj]
    rfl
  · intro e w p fs2 hok
    obtain ⟨hsj2, hfs2, he, hw⟩ := generate_ok_inv hok
    refine ⟨safe_join_some_eq hd (by simp [pv_png]) hsj2, hfs2, ?_⟩
    subst he
    subst hw
    unfold generate_qr_code generate_qr_code_try
    rw [hsj2]
    show (Except.ok p, fsWrite p fs2) = (Except.ok p, fs2)
    rw [hfs2, fsWrite_idem]

/-- C6 (witness): `"alice"` is written exactly to `qrcodes/alice.png`; the
    slashed id `"a//b"` is written to the normalised `qrcodes/a/b.png`, and a
    second call overwrites it without growing the file set. -/
theorem C6_witness :
    generate_qr_code true true (pv "qrcodes") (pv "alice") []
      = (Except.ok (pv "qrcodes" ++ '/' :: (pv "alice" ++ pv ".png")),
          fsWrite (pv "qrcodes" ++ '/' :: (pv "alice" ++ pv ".png")) []) ∧
    (pv "qrcodes/a/b.png"
        = posixJoin (pv "qrcodes") (normpath (pv "a//b" ++ pv ".png")) ∧
      [pv "qrcodes/a/b.png"] = fsWrite (pv "qrcodes/a/b.png") [] ∧
      generate_qr_code true true (pv "qrcodes") (pv "a//b") [pv "qrcodes/a/b.png"]
        = (Except.ok (pv "qrcodes/a/b.png"), [pv "qrcodes/a/b.png"])) :=
  ⟨(C6_theorem (pv "qrcodes") (pv "alice") [] (by decide) (by decide)).1
      (by decide) (by decide),
   (C6_theorem (pv "qrcodes") (pv "a//b") [] (by decide) (by decide)).2 true true
      (pv "qrcodes/a/b.png") [pv "qrcodes/a/b.png"] (by rfl)⟩

/-- C7: stored attendance rows are immutable and never deleted — marking
    appends (old rows are a prefix of the new rows), listing is a pure
    permutation read, re-initialising an existing store is the identity, and
    each of the three request handlers can only extend the row list. -/
theorem C7_theorem :
    ∀ (now : Nat) (uid : PyStr) (t : Table)
      (encode_ok write_ok conn_ok exec_ok : Bool) (dir : PyStr)
      (data : ReqData) (st : AppState),
      t.rows <+: (mark_attendance now uid t).rows ∧
      List.Perm (get_attendance_records t) t.rows ∧
      init_db (some t) = some t ∧
      init_db none = some ⟨[], 1⟩ ∧
      st.db.rows <+: ((generate_qr_handler encode_ok write_ok dir data st).2).db.rows ∧
      st.db.rows <+: ((mark_attendance_handler conn_ok exec_ok now data st).2).db.rows ∧
      st.db.rows <+: ((get_attendance_handler conn_ok exec_ok st).2).db.rows := by
  intro now uid t e w c x dir data st
  refine ⟨List.prefix_append _ _, List.perm_insertionSort tsGE _, rfl, rfl, ?_, ?_, ?_⟩
  · rw [generate_handler_db]
  · exact mark_handler_db_grows c x now data st
  · rw [get_handler_state]

/-- C8 (refuted by the code): the service layer never closes a database
    connection — `with sqlite3.connect(...)` only commits or rolls back, and
    no code path calls `conn.close()`.  On the success path the connection
    happens to be disposed of together with the returning frame, but on a
    failing statement the raised `DatabaseError`'s traceback keeps the
    connection open into the route handler's `except` block: for both service
    calls, one connection is still open when control returns to the HTTP
    layer, contradicting the release-on-every-exit-path contract. -/
theorem C8_theorem :
    ∀ (now : Nat) (user_id : PyStr) (t : Table),
      (mark_attendance_svc true true now user_id t).2 = 0 ∧
      (mark_attendance_svc true false now user_id t).2 = 1 ∧
      (get_attendance_records_svc true true t).2 = 0 ∧
      (get_attendance_records_svc true false t).2 = 1 := by
  intro now u t
  exact ⟨rfl, rfl, rfl, rfl⟩

/-- C9: a request whose JSON body parses to the empty object is rejected by
    both POST endpoints with 400 and `{"error": "No data provided"}` — Python's
    `not data` is true for `{}` — before any user-id validation or service
    work, the state being returned untouched. -/
theorem C9_theorem :
    ∀ (encode_ok write_ok conn_ok exec_ok : Bool) (dir : PyStr) (now : Nat)
      (st : AppState),
      generate_qr_handler encode_ok write_ok dir (some []) st
        = ((400, JsonResp.errBody (pv "No data provided")), st) ∧
      mark_attendance_handler conn_ok exec_ok now (some []) st
        = ((400, JsonResp.errBody (pv "No data provided")), st) := by
  intro _ _ _ _ _ _ _
  exact ⟨rfl, rfl⟩

/-- C10: whatever fails inside `generate_qr_code` — the internal path
    rejection (which first raises `QRCodeError("Invalid QR code path")`), an
    encode failure, or a write failure — the enclosing handler re-raises
    `QRCodeError("Failed to generate QR code")`, so a caller sees exactly one
    failure message and cannot tell the causes apart. -/
theorem C10_theorem :
    (∀ (encode_ok write_ok : Bool) (dir uid : PyStr) (fs : List PyStr),
      (generate_qr_code encode_ok write_ok dir uid fs).1
          = Except.error (pv "Failed to generate QR code") ∨
      ∃ p, (generate_qr_code encode_ok write_ok dir uid fs).1 = Except.ok p) ∧
    generate_qr_code_try true true (pv "qrcodes") (pv "../evil") []
      = Except.error (PyExc.qrError (pv "Invalid QR code path")) ∧
    (generate_qr_code true true (pv "qrcodes") (pv "../evil") []).1
      = Except.error (pv "Failed to generate QR code") := by
  refine ⟨?_, by rfl, by rfl⟩
  intro e w dir uid fs
  rcases generate_cases e w dir uid fs with ⟨p, hp, _⟩ | herr
  · exact Or.inr ⟨p, by rw [hp]⟩
  · exact Or.inl (by rw [herr])
